import Mathlib

/-!
Verification of the Modbus CRC16 checksum routine of `benchmark.py`
(`crc16_pure_python`) against its specification.

The embedding is shallow: Python byte strings become `List Nat` whose
elements are below 256, Python's unbounded integers become `Nat`, and the
bitwise operators `^`, `>>`, `&` become `^^^`, `>>>`, `&&&` on `Nat`.
-/

namespace ModbusCRC

/-- The 256-entry CRC16 Modbus lookup table embedded in
`crc16_pure_python` (benchmark.py, lines 31-64), entry for entry. -/
def table : List Nat := [
  0x0000, 0xC0C1, 0xC181, 0x0140, 0xC301, 0x03C0, 0x0280, 0xC241,
  0xC601, 0x06C0, 0x0780, 0xC741, 0x0500, 0xC5C1, 0xC481, 0x0440,
  0xCC01, 0x0CC0, 0x0D80, 0xCD41, 0x0F00, 0xCFC1, 0xCE81, 0x0E40,
  0x0A00, 0xCAC1, 0xCB81, 0x0B40, 0xC901, 0x09C0, 0x0880, 0xC841,
  0xD801, 0x18C0, 0x1980, 0xD941, 0x1B00, 0xDBC1, 0xDA81, 0x1A40,
  0x1E00, 0xDEC1, 0xDF81, 0x1F40, 0xDD01, 0x1DC0, 0x1C80, 0xDC41,
  0x1400, 0xD4C1, 0xD581, 0x1540, 0xD701, 0x17C0, 0x1680, 0xD641,
  0xD201, 0x12C0, 0x1380, 0xD341, 0x1100, 0xD1C1, 0xD081, 0x1040,
  0xF001, 0x30C0, 0x3180, 0xF141, 0x3300, 0xF3C1, 0xF281, 0x3240,
  0x3600, 0xF6C1, 0xF781, 0x3740, 0xF501, 0x35C0, 0x3480, 0xF441,
  0x3C00, 0xFCC1, 0xFD81, 0x3D40, 0xFF01, 0x3FC0, 0x3E80, 0xFE41,
  0xFA01, 0x3AC0, 0x3B80, 0xFB41, 0x3900, 0xF9C1, 0xF881, 0x3840,
  0x2800, 0xE8C1, 0xE981, 0x2940, 0xEB01, 0x2BC0, 0x2A80, 0xEA41,
  0xEE01, 0x2EC0, 0x2F80, 0xEF41, 0x2D00, 0xEDC1, 0xEC81, 0x2C40,
  0xE401, 0x24C0, 0x2580, 0xE541, 0x2700, 0xE7C1, 0xE681, 0x2640,
  0x2200, 0xE2C1, 0xE381, 0x2340, 0xE101, 0x21C0, 0x2080, 0xE041,
  0xA001, 0x60C0, 0x6180, 0xA141, 0x6300, 0xA3C1, 0xA281, 0x6240,
  0x6600, 0xA6C1, 0xA781, 0x6740, 0xA501, 0x65C0, 0x6480, 0xA441,
  0x6C00, 0xACC1, 0xAD81, 0x6D40, 0xAF01, 0x6FC0, 0x6E80, 0xAE41,
  0xAA01, 0x6AC0, 0x6B80, 0xAB41, 0x6900, 0xA9C1, 0xA881, 0x6840,
  0x7800, 0xB8C1, 0xB981, 0x7940, 0xBB01, 0x7BC0, 0x7A80, 0xBA41,
  0xBE01, 0x7EC0, 0x7F80, 0xBF41, 0x7D00, 0xBDC1, 0xBC81, 0x7C40,
  0xB401, 0x74C0, 0x7580, 0xB541, 0x7700, 0xB7C1, 0xB681, 0x7640,
  0x7200, 0xB2C1, 0xB381, 0x7340, 0xB101, 0x71C0, 0x7080, 0xB041,
  0x5000, 0x90C1, 0x9181, 0x5140, 0x9301, 0x53C0, 0x5280, 0x9241,
  0x9601, 0x56C0, 0x5780, 0x9741, 0x5500, 0x95C1, 0x9481, 0x5440,
  0x9C01, 0x5CC0, 0x5D80, 0x9D41, 0x5F00, 0x9FC1, 0x9E81, 0x5E40,
  0x5A00, 0x9AC1, 0x9B81, 0x5B40, 0x9901, 0x59C0, 0x5880, 0x9841,
  0x8801, 0x48C0, 0x4980, 0x8941, 0x4B00, 0x8BC1, 0x8A81, 0x4A40,
  0x4E00, 0x8EC1, 0x8F81, 0x4F40, 0x8D01, 0x4DC0, 0x4C80, 0x8C41,
  0x4400, 0x84C1, 0x8581, 0x4540, 0x8701, 0x47C0, 0x4680, 0x8641,
  0x8201, 0x42C0, 0x4380, 0x8341, 0x4100, 0x81C1, 0x8081, 0x4040]

/-- The per-byte update of the table-driven loop (benchmark.py line 68):
`crc = (crc >> 8) ^ table[(crc ^ byte) & 0xFF]`.  The index is masked
with `0xFF`, so the `List.getD` default is never reached. -/
def tableStep (crc byte : Nat) : Nat :=
  (crc >>> 8) ^^^ table.getD ((crc ^^^ byte) &&& 0xFF) 0

/-- The accumulator left by the loop of `crc16_pure_python`
(benchmark.py lines 66-68): seed `0xFFFF`, then `tableStep` per byte. -/
def crc16_pure_python_acc (data : List Nat) : Nat :=
  data.foldl tableStep 0xFFFF

/-- `crc16_pure_python` (benchmark.py lines 28-69): the final accumulator
encoded as two bytes, low byte first (line 69:
`bytes([crc & 0xFF, crc >> 8])`). -/
def crc16_pure_python (data : List Nat) : List Nat :=
  [crc16_pure_python_acc data &&& 0xFF, crc16_pure_python_acc data >>> 8]

/-- One bit-level reduction step of the bitwise reference strategy
(spec section 4.2): if the low bit is set, shift right and XOR the
reflected polynomial `0xA001`, else just shift right. -/
def bitwiseStep (crc : Nat) : Nat :=
  if crc &&& 1 = 1 then (crc >>> 1) ^^^ 0xA001 else crc >>> 1

/-- `n` iterations of `bitwiseStep` (the reference uses 8 per byte). -/
def bitwiseReduce : Nat → Nat → Nat
  | 0, crc => crc
  | n + 1, crc => bitwiseReduce n (bitwiseStep crc)

/-- Modelled from the spec: the accumulator of BitwiseStrategy
(spec section 4.2; this strategy lives in the `modbus_crc` module, which
is not under src/): start from `init`, and per byte `b` do
`crc ^= b` followed by eight `bitwiseStep` iterations.  The seed is a
parameter so that the table-correctness property (seed 0) and the full
computation (seed 0xFFFF) share one definition. -/
def crc16_bitwise_acc (init : Nat) (data : List Nat) : Nat :=
  data.foldl (fun crc b => bitwiseReduce 8 (crc ^^^ b)) init

/-- Modelled from the spec: BitwiseStrategy's `compute`, with the same
output encoding contract as the table strategy (spec section 4.2:
identical signature and output contract). -/
def crc16_bitwise (data : List Nat) : List Nat :=
  [crc16_bitwise_acc 0xFFFF data &&& 0xFF, crc16_bitwise_acc 0xFFFF data >>> 8]

/-- Written from the spec's words (spec section 4.1), for the refinement
claim: the table-driven algorithm as the spec states it, by recursion
over the byte sequence. -/
def specTableAcc : Nat → List Nat → Nat
  | crc, [] => crc
  | crc, b :: rest => specTableAcc ((crc >>> 8) ^^^ table.getD ((crc ^^^ b) &&& 0xFF) 0) rest

/-! ## Helper lemmas -/

lemma xor_shiftRight (x y k : Nat) : (x ^^^ y) >>> k = (x >>> k) ^^^ (y >>> k) := by
  apply Nat.eq_of_testBit_eq
  intro i
  simp [Nat.testBit_shiftRight, Nat.testBit_xor]

lemma shiftLeft_one_shiftRight_one (h : Nat) : (h <<< 1) >>> 1 = h := by
  rw [Nat.shiftLeft_eq, Nat.shiftRight_eq_div_pow]
  simp

lemma shiftLeft_one_and_one (h : Nat) : (h <<< 1) &&& 1 = 0 := by
  rw [Nat.shiftLeft_eq, Nat.and_one_is_mod]
  simp [Nat.mul_mod_left]

lemma bitwiseStep_linear (h l : Nat) :
    bitwiseStep ((h <<< 1) ^^^ l) = h ^^^ bitwiseStep l := by
  unfold bitwiseStep
  have hand : ((h <<< 1) ^^^ l) &&& 1 = l &&& 1 := by
    rw [Nat.and_xor_distrib_right, shiftLeft_one_and_one, Nat.zero_xor]
  have hshift : ((h <<< 1) ^^^ l) >>> 1 = h ^^^ (l >>> 1) := by
    rw [xor_shiftRight, shiftLeft_one_shiftRight_one]
  rw [hand, hshift]
  by_cases hc : l &&& 1 = 1
  · simp [hc, Nat.xor_assoc]
  · simp only [if_neg hc]

lemma bitwiseReduce_linear (n : Nat) :
    ∀ h l : Nat, bitwiseReduce n ((h <<< n) ^^^ l) = h ^^^ bitwiseReduce n l := by
  induction n with
  | zero => intro h l; simp [bitwiseReduce, Nat.shiftLeft_zero]
  | succ n ih =>
    intro h l
    have hsplit : h <<< (n + 1) = (h <<< n) <<< 1 := by
      rw [Nat.shiftLeft_succ, Nat.shiftLeft_eq _ 1]
      ring
    show bitwiseReduce n (bitwiseStep ((h <<< (n + 1)) ^^^ l)) =
      h ^^^ bitwiseReduce n (bitwiseStep l)
    rw [hsplit, bitwiseStep_linear]
    exact ih h (bitwiseStep l)

lemma split8 (x : Nat) : ((x >>> 8) <<< 8) ^^^ (x &&& 0xFF) = x := by
  apply Nat.eq_of_testBit_eq
  intro i
  have h255 : (0xFF : Nat) = 2 ^ 8 - 1 := by norm_num
  rw [h255, Nat.testBit_xor, Nat.testBit_shiftLeft, Nat.testBit_and,
      Nat.testBit_two_pow_sub_one]
  rcases Nat.lt_or_ge i 8 with h | h
  · have hnle : ¬ 8 ≤ i := by omega
    simp [hnle, h]
  · rw [Nat.testBit_shiftRight]
    have h8 : 8 + (i - 8) = i := by omega
    rw [h8]
    simp [h, Nat.not_lt.mpr h]

lemma bitwiseReduce8_decomp (x : Nat) :
    bitwiseReduce 8 x = (x >>> 8) ^^^ bitwiseReduce 8 (x &&& 0xFF) := by
  conv_lhs => rw [← split8 x]
  exact bitwiseReduce_linear 8 (x >>> 8) (x &&& 0xFF)

set_option maxRecDepth 4096 in
/-- Each table entry below index 256 equals the 8-step bitwise reduction
of its index. -/
lemma table_getD_eq_reduce : ∀ i : Nat, i < 256 → table.getD i 0 = bitwiseReduce 8 i := by
  decide

lemma and_0xFF_lt (x : Nat) : x &&& 0xFF < 256 := by
  have h : (0xFF : Nat) = 2 ^ 8 - 1 := by norm_num
  rw [h, Nat.and_pow_two_sub_one_eq_mod]
  exact Nat.mod_lt _ (by norm_num)

lemma shiftRight8_eq_zero (b : Nat) (hb : b < 256) : b >>> 8 = 0 := by
  rw [Nat.shiftRight_eq_div_pow]
  exact Nat.div_eq_of_lt (by norm_num at hb ⊢; omega)

/-- One table-driven step agrees with one byte of the bitwise strategy,
for any accumulator and any genuine byte. -/
lemma tableStep_eq_bitwise (crc b : Nat) (hb : b < 256) :
    tableStep crc b = bitwiseReduce 8 (crc ^^^ b) := by
  rw [bitwiseReduce8_decomp, xor_shiftRight, shiftRight8_eq_zero b hb, Nat.xor_zero]
  unfold tableStep
  rw [table_getD_eq_reduce _ (and_0xFF_lt _)]

lemma foldl_table_eq_bitwise (data : List Nat) :
    ∀ init : Nat, (∀ b ∈ data, b < 256) →
      data.foldl tableStep init =
        data.foldl (fun crc b => bitwiseReduce 8 (crc ^^^ b)) init := by
  induction data with
  | nil => intro init _; rfl
  | cons b rest ih =>
    intro init hall
    have hb : b < 256 := hall b (List.mem_cons_self b rest)
    simp only [List.foldl_cons]
    rw [tableStep_eq_bitwise init b hb]
    exact ih _ (fun x hx => hall x (List.mem_cons_of_mem b hx))

/-! ## Bounds -/

set_option maxRecDepth 4096 in
lemma table_entries_lt : ∀ e ∈ table, e < 65536 := by
  decide

set_option maxRecDepth 4096 in
lemma table_getD_lt_of_lt : ∀ i : Nat, i < 256 → table.getD i 0 < 65536 := by
  decide

set_option maxRecDepth 4096 in
lemma table_length_eq : table.length = 256 := by
  decide

lemma tableStep_lt (crc b : Nat) (h : crc < 65536) : tableStep crc b < 65536 := by
  unfold tableStep
  have h1 : crc >>> 8 < 65536 := by
    rw [Nat.shiftRight_eq_div_pow]
    exact lt_of_le_of_lt (Nat.div_le_self _ _) h
  have h2 : table.getD ((crc ^^^ b) &&& 0xFF) 0 < 65536 :=
    table_getD_lt_of_lt _ (and_0xFF_lt _)
  have e : (65536 : Nat) = 2 ^ 16 := by norm_num
  rw [e] at h1 h2 ⊢
  exact Nat.xor_lt_two_pow h1 h2

lemma foldl_tableStep_lt (data : List Nat) :
    ∀ init : Nat, init < 65536 → data.foldl tableStep init < 65536 := by
  induction data with
  | nil => intro init h; exact h
  | cons b rest ih =>
    intro init h
    simp only [List.foldl_cons]
    exact ih _ (tableStep_lt init b h)

lemma acc_lt (data : List Nat) : crc16_pure_python_acc data < 65536 :=
  foldl_tableStep_lt data 0xFFFF (by norm_num)

lemma acc_shiftRight8_lt (data : List Nat) : crc16_pure_python_acc data >>> 8 < 256 := by
  rw [Nat.shiftRight_eq_div_pow]
  rw [Nat.div_lt_iff_lt_mul (by positivity)]
  have h := acc_lt data
  norm_num
  omega

lemma foldl_eq_specTableAcc (data : List Nat) :
    ∀ init : Nat, data.foldl tableStep init = specTableAcc init data := by
  induction data with
  | nil => intro init; rfl
  | cons b rest ih =>
    intro init
    simp only [List.foldl_cons, specTableAcc]
    exact ih _

/-! ## Claims -/

/-- C1: for every byte sequence (every element below 256, all lengths
including 0), the table-driven `crc16_pure_python` produces the same
result as the bitwise reference strategy (seed 0xFFFF; per byte: XOR the
byte in, then 8 shift/conditional-XOR-0xA001 iterations). -/
theorem crc16_table_eq_bitwise (data : List Nat) (hdata : ∀ b ∈ data, b < 256) :
    crc16_pure_python data = crc16_bitwise data := by
  have h : crc16_pure_python_acc data = crc16_bitwise_acc 0xFFFF data :=
    foldl_table_eq_bitwise data 0xFFFF hdata
  unfold crc16_pure_python crc16_bitwise
  rw [h]

/-- Witness for C1 at the Modbus request frame 01 03 00 00 00 06. -/
theorem crc16_table_eq_bitwise_witness :
    (∀ b ∈ [0x01, 0x03, 0x00, 0x00, 0x00, 0x06], b < 256) ∧
      crc16_pure_python [0x01, 0x03, 0x00, 0x00, 0x00, 0x06] =
        crc16_bitwise [0x01, 0x03, 0x00, 0x00, 0x00, 0x06] :=
  ⟨by decide, crc16_table_eq_bitwise [0x01, 0x03, 0x00, 0x00, 0x00, 0x06] (by decide)⟩

/-- C2: the accumulator of `crc16_pure_python` is exactly the table-driven
algorithm the spec states: seed 0xFFFF, then per byte `b` in order
`accumulator = (accumulator >>> 8) ^^^ table[(accumulator ^^^ b) &&& 0xFF]`,
and the final accumulator is the CRC. -/
theorem crc16_acc_implements_spec (data : List Nat) :
    crc16_pure_python_acc data = specTableAcc 0xFFFF data :=
  foldl_eq_specTableAcc data 0xFFFF

/-- C3: every entry of the embedded table equals the bitwise reference run
on the single-byte buffer holding its index, with the accumulator seeded
to 0 instead of 0xFFFF. -/
theorem table_entry_eq_bitwise_seed_zero (i : Nat) (hi : i < 256) :
    table.getD i 0 = crc16_bitwise_acc 0 [i] := by
  have h : crc16_bitwise_acc 0 [i] = bitwiseReduce 8 (0 ^^^ i) := rfl
  rw [h, Nat.zero_xor]
  exact table_getD_eq_reduce i hi

/-- Witness for C3 at index 200. -/
theorem table_entry_eq_bitwise_seed_zero_witness :
    (200 : Nat) < 256 ∧ table.getD 200 0 = crc16_bitwise_acc 0 [200] :=
  ⟨by decide, table_entry_eq_bitwise_seed_zero 200 (by decide)⟩

set_option maxRecDepth 4096 in
/-- C4: on the read-holding-registers request frame 01 03 00 00 00 06,
`crc16` returns exactly the canonical Modbus checksum bytes C5 C8 (low
byte first), which is also what the bitwise reference emits there. -/
theorem crc16_known_vector :
    crc16_pure_python [0x01, 0x03, 0x00, 0x00, 0x00, 0x06] = [0xC5, 0xC8] ∧
      crc16_bitwise [0x01, 0x03, 0x00, 0x00, 0x00, 0x06] = [0xC5, 0xC8] := by
  constructor <;> decide

/-- C5: on the empty byte sequence `crc16` returns the seed 0xFFFF encoded
little-endian, i.e. the bytes FF FF. -/
theorem crc16_empty : crc16_pure_python [] = [0xFF, 0xFF] := by decide

/-- C6: the result of `crc16` is exactly two bytes: first the low byte
`accumulator &&& 0xFF`, then the high byte `accumulator >>> 8`. -/
theorem crc16_output_encoding (data : List Nat) :
    (crc16_pure_python data).length = 2 ∧
      (crc16_pure_python data).getD 0 0 = crc16_pure_python_acc data &&& 0xFF ∧
      (crc16_pure_python data).getD 1 0 = crc16_pure_python_acc data >>> 8 :=
  ⟨rfl, rfl, rfl⟩

/-- C7: the computation is total: every table index the loop can form is
in range of the 256-entry table, and both output bytes are in 0..255, for
every input byte sequence. -/
theorem crc16_total_safe (data : List Nat) :
    (∀ crc b : Nat, (crc ^^^ b) &&& 0xFF < table.length) ∧
      (∀ x ∈ crc16_pure_python data, x < 256) := by
  constructor
  · intro crc b
    rw [table_length_eq]
    exact and_0xFF_lt _
  · intro x hx
    simp only [crc16_pure_python, List.mem_cons, List.not_mem_nil, or_false] at hx
    rcases hx with rfl | rfl
    · exact and_0xFF_lt _
    · exact acc_shiftRight8_lt data

/-- C8: `crc16` is deterministic: identical inputs give identical
outputs (it is a pure function of its argument). -/
theorem crc16_deterministic (d1 d2 : List Nat) (h : d1 = d2) :
    crc16_pure_python d1 = crc16_pure_python d2 := by
  rw [h]

/-- Witness for C8 on a concrete input. -/
theorem crc16_deterministic_witness :
    ([1, 2, 3] : List Nat) = [1, 2, 3] ∧
      crc16_pure_python [1, 2, 3] = crc16_pure_python [1, 2, 3] :=
  ⟨rfl, crc16_deterministic [1, 2, 3] [1, 2, 3] rfl⟩

/-- C9: the per-byte update is incremental: the accumulator after
`data ++ [b]` is the single-byte update applied, with `b`, to the
accumulator after `data`. -/
theorem crc16_acc_incremental (data : List Nat) (b : Nat) :
    crc16_pure_python_acc (data ++ [b]) = tableStep (crc16_pure_python_acc data) b := by
  unfold crc16_pure_python_acc
  rw [List.foldl_append]
  rfl

/-- C10: the accumulator stays in 0..0xFFFF: the seed is, every per-byte
step preserves it (every table entry is below 2^16), so on every input the
final accumulator is below 2^16 and its high byte `>>> 8` is in 0..255. -/
theorem crc16_acc_16bit_invariant (data : List Nat) (crc b : Nat) (h : crc < 65536) :
    tableStep crc b < 65536 ∧ (∀ e ∈ table, e < 65536) ∧
      crc16_pure_python_acc data < 65536 ∧ crc16_pure_python_acc data >>> 8 < 256 :=
  ⟨tableStep_lt crc b h, table_entries_lt, acc_lt data, acc_shiftRight8_lt data⟩

/-- Witness for C10 at a concrete accumulator, byte and input. -/
theorem crc16_acc_16bit_invariant_witness :
    (0xFFFF : Nat) < 65536 ∧
      (tableStep 0xFFFF 0x01 < 65536 ∧ (∀ e ∈ table, e < 65536) ∧
        crc16_pure_python_acc [0x01, 0x03] < 65536 ∧
        crc16_pure_python_acc [0x01, 0x03] >>> 8 < 256) :=
  ⟨by decide, crc16_acc_16bit_invariant [0x01, 0x03] 0xFFFF 0x01 (by decide)⟩

end ModbusCRC
